import Mathlib

/-!
Verification of the SkyFunnel email-validator HTTP API (Go sources) against its
natural-language specification.  The Go program (authoritative revision:
`src/unnamed/part_000`) exposes

  * `GET /v1/:email/verification` — single-address verification,
  * `POST /v1/bulk`               — concurrent batch verification,

both gated by a shared-secret `Authorization` header middleware, configured from
environment variables read at process start.  The external AfterShip
`email-verifier` library is the opaque "Verification Capability": it is modelled
as a function from an address to either an error string or a (possibly nil)
structured result, matching the Go signature `Verify(email string) (*Result, error)`.

Machine-level conventions of the embedding:
  * Go strings are Lean `String`s; a Go `*T` pointer field is `Option T`
    (nil = `none`); a Go `error` return is the `Except.error` branch.
  * HTTP responses are records of status code, Content-Type header and body.
  * Goroutine interleaving in the bulk path is an explicit completion order:
    the list of input indices in the order the goroutines take the aggregation
    lock; a full run is any permutation of all indices.
  * `encoding/json` marshalling is embedded as a map to a JSON value AST plus a
    Go-compatible renderer (field order as declared, `omitempty` semantics,
    HTML-escaping as `json.Marshal` does).
-/

/-- Maximum batch size for `/v1/bulk` (Go global `MAX_EMAILS = 15`). -/
def MAX_EMAILS : Nat := 15

/-- Nested `Syntax` payload of the external library result; the repository's code
only ever reads `ret.Syntax.Valid`. -/
structure SyntaxResult where
  valid : Bool
deriving DecidableEq, Repr

/-- Modelled from the spec: the Verification Capability's successful payload is an
"opaque structured payload"; the repository only dereferences its `Syntax.Valid`
field, so the model carries exactly that nested field. -/
structure VResult where
  syntaxCheck : SyntaxResult
deriving DecidableEq, Repr

/-- A return of the capability call `verifier.Verify(email)`: Go's
`(*Result, error)` pair, i.e. an error string or a possibly-nil result pointer. -/
abbrev VerifyReturn := Except String (Option VResult)

/-- JSON value AST, the target of the embedded `encoding/json` marshalling. -/
inductive Json where
  | str (s : String)
  | bool (b : Bool)
  | arr (elems : List Json)
  | obj (fields : List (String × Json))

/-- Hexadecimal digit character (lowercase), as `encoding/json` emits in
`\u00XX` escapes. -/
def hexDigit (n : Nat) : Char :=
  if n < 10 then Char.ofNat (48 + n) else Char.ofNat (87 + n)

/-- Escape one character the way Go's `json.Marshal` does with default options:
quote and backslash escaped, `<`, `>`, `&` HTML-escaped, newline/carriage
return/tab named escapes, remaining control characters as `\u00XX`. -/
def escapeChar (c : Char) : String :=
  if c = '"' then "\\\""
  else if c = '\\' then "\\\\"
  else if c = '<' then "\\u003c"
  else if c = '>' then "\\u003e"
  else if c = '&' then "\\u0026"
  else if c = '\n' then "\\n"
  else if c = '\r' then "\\r"
  else if c = '\t' then "\\t"
  else if c.toNat < 32 then
    "\\u00" ++ String.mk [hexDigit (c.toNat / 16), hexDigit (c.toNat % 16)]
  else String.singleton c

/-- Escape a whole string for JSON output (Go `encoding/json` string encoder). -/
def escapeString (s : String) : String :=
  String.join (s.data.map escapeChar)

mutual

/-- Render a JSON value to its `json.Marshal` byte representation (compact, no
spaces, fields in declaration order). -/
def Json.render : Json → String
  | .str s => "\"" ++ escapeString s ++ "\""
  | .bool true => "true"
  | .bool false => "false"
  | .arr xs => "[" ++ Json.renderElems xs ++ "]"
  | .obj fs => "\x7b" ++ Json.renderFields fs ++ "\x7d"

/-- Render array elements, comma-separated. -/
def Json.renderElems : List Json → String
  | [] => ""
  | [x] => x.render
  | x :: y :: rest => x.render ++ "," ++ Json.renderElems (y :: rest)

/-- Render object fields, comma-separated `"key":value` pairs. -/
def Json.renderFields : List (String × Json) → String
  | [] => ""
  | [(k, v)] => "\"" ++ escapeString k ++ "\":" ++ v.render
  | (k, v) :: p :: rest =>
      "\"" ++ escapeString k ++ "\":" ++ v.render ++ "," ++ Json.renderFields (p :: rest)

end

/-- Look up a field of a JSON object by exact key, as `encoding/json` does for a
struct field whose tag matches the key exactly. -/
def jlookup (fields : List (String × Json)) (k : String) : Option Json :=
  (fields.find? (fun p => p.1 = k)).map (fun p => p.2)

/-- Decode a JSON value expected to be a string (`json.Unmarshal` into `string`). -/
def decodeString : Json → Option String
  | .str s => some s
  | _ => none

/-- Decode a JSON value expected to be a boolean (`json.Unmarshal` into `bool`). -/
def decodeBool : Json → Option Bool
  | .bool b => some b
  | _ => none

/-- Marshal the capability result payload: struct with its nested
`syntax.valid` field (model of the external library's JSON shape). -/
def encodeVResult (r : VResult) : Json :=
  .obj [("syntax", .obj [("valid", .bool r.syntaxCheck.valid)])]

/-- Unmarshal the capability result payload; a missing field decodes to the Go
zero value, a type-mismatched field is an unmarshal error. -/
def decodeVResult : Json → Option VResult
  | .obj fs =>
      match jlookup fs "syntax" with
      | none => some ⟨⟨false⟩⟩
      | some (.obj sfs) =>
          match jlookup sfs "valid" with
          | none => some ⟨⟨false⟩⟩
          | some v => (decodeBool v).map (fun b => ⟨⟨b⟩⟩)
      | some _ => none
  | _ => none

/-- Go struct `BulkVerificationRequest { Emails []string }`, the decoded body of
`POST /v1/bulk`. -/
structure BulkVerificationRequest where
  emails : List String
deriving DecidableEq, Repr

/-- Go struct `BulkVerificationResult`: `Email string`, `Result *Result` with tag
`json:"result,omitempty"` (nil pointer = `none`), `Error string` with tag
`json:"error,omitempty"` (zero value `""`). -/
structure BulkVerificationResult where
  email : String
  result : Option VResult
  error : String
deriving DecidableEq, Repr

/-- Body of the per-address goroutine in `BulkEmailVerification` (part_000 lines
134-141): build the record with the input address, then fill `Error` from
`err.Error()` on failure and `Result` from the returned pointer on success. -/
def mkOutcome (email : String) (vr : VerifyReturn) : BulkVerificationResult :=
  match vr with
  | .error e => { email := email, result := none, error := e }
  | .ok r => { email := email, result := r, error := "" }

/-- The concurrent dispatch loop of `BulkEmailVerification` (part_000 lines
124-149): one goroutine per address, each appends its outcome to the shared
slice under the mutex; `order` is the sequence of input indices in the order the
goroutines reach the append, so after `wg.Wait()` the slice holds the outcomes
in completion order.  A completed run is any `order` that is a permutation of
all indices `0..n-1`. -/
def bulkDispatch (verify : String → VerifyReturn) (emails : List String)
    (order : List Nat) : List BulkVerificationResult :=
  order.map (fun i => mkOutcome (emails.getD i "") (verify (emails.getD i "")))

/-- Marshal one bulk outcome: `email` always present, `result` omitted when the
pointer is nil, `error` omitted when the string is empty (`omitempty`). -/
def encodeOutcome (o : BulkVerificationResult) : Json :=
  .obj (("email", .str o.email) ::
    ((match o.result with
      | none => []
      | some r => [("result", encodeVResult r)]) ++
     (if o.error = "" then [] else [("error", Json.str o.error)])))

/-- Marshal the whole outcome slice as a JSON array. -/
def encodeOutcomeList (rs : List BulkVerificationResult) : Json :=
  .arr (rs.map encodeOutcome)

/-- Unmarshal one bulk outcome: missing fields decode to Go zero values
(`""` / nil), a type-mismatched field is an unmarshal error. -/
def decodeOutcome : Json → Option BulkVerificationResult
  | .obj fs =>
      match (match jlookup fs "email" with
             | none => some ""
             | some j => decodeString j),
            (match jlookup fs "result" with
             | none => some none
             | some j => (decodeVResult j).map some),
            (match jlookup fs "error" with
             | none => some ""
             | some j => decodeString j) with
      | some e, some r, some err => some ⟨e, r, err⟩
      | _, _, _ => none
  | _ => none

/-- Unmarshal a list of JSON values elementwise; any element failure fails the
whole unmarshal, as `encoding/json` does for a slice. -/
def decodeOutcomes : List Json → Option (List BulkVerificationResult)
  | [] => some []
  | x :: xs =>
      match decodeOutcome x, decodeOutcomes xs with
      | some o, some t => some (o :: t)
      | _, _ => none

/-- Unmarshal a JSON array of bulk outcomes. -/
def decodeOutcomeList : Json → Option (List BulkVerificationResult)
  | .arr xs => decodeOutcomes xs
  | _ => none

/-- HTTP response as written by a handler: status code, `Content-Type` header
(`""` when the handler never sets it and Go would content-sniff), and body. -/
structure HttpResp where
  status : Nat
  contentType : String
  body : String
deriving DecidableEq, Repr

/-- Go's `http.Error(w, msg, status)`: sets `Content-Type: text/plain;
charset=utf-8`, the given status, and writes the message plus a newline. -/
def httpError (msg : String) (status : Nat) : HttpResp :=
  { status := status, contentType := "text/plain; charset=utf-8", body := msg ++ "\n" }

/-- Helper `respondWithError` (part_000 lines 194-201): sets `Content-Type:
application/json`, the given status, and JSON-encodes `{"error": errMsg}` with
`json.NewEncoder(w).Encode`, which appends a newline. -/
def respondWithError (status : Nat) (errMsg : String) : HttpResp :=
  { status := status, contentType := "application/json",
    body := (Json.obj [("error", Json.str errMsg)]).render ++ "\n" }

/-- Response produced by a bare `fmt.Fprint(w, s)`: implicit status 200, no
`Content-Type` set by the handler. -/
def fprintResp (s : String) : HttpResp :=
  { status := 200, contentType := "", body := s }

/-- The `POST /v1/bulk` handler `BulkEmailVerification` (part_000 lines 96-160).
`body` is the result of decoding the request JSON (`none` = malformed).  After
setting `Content-Type: application/json` it validates the batch (malformed,
empty, oversized, each answered by `http.Error` with a 400 and a JSON-formatted
message — `http.Error` overwrites the Content-Type with text/plain), then runs
the concurrent dispatch with completion order `order` and writes the marshalled
outcome slice with status 200. -/
def BulkEmailVerification (verify : String → VerifyReturn)
    (body : Option BulkVerificationRequest) (order : List Nat) : HttpResp :=
  match body with
  | none => httpError "\x7b\"error\": \"Invalid request format\"\x7d" 400
  | some req =>
      if req.emails.length = 0 then
        httpError "\x7b\"error\": \"No emails provided\"\x7d" 400
      else if req.emails.length > MAX_EMAILS then
        httpError ("\x7b\"error\": \"Too many emails provided (max " ++
          toString MAX_EMAILS ++ ")\"\x7d") 400
      else
        { status := 200, contentType := "application/json",
          body := (encodeOutcomeList (bulkDispatch verify req.emails order)).render }

/-- Outcome of the `verifyToken` middleware on one request: reject with a status
and message, or invoke the wrapped handler. -/
inductive AuthDecision where
  | reject (status : Nat) (msg : String)
  | invokeHandler
deriving DecidableEq, Repr

/-- The `verifyToken` middleware (part_000 lines 20-45).  `env` is the process
environment (set before the server starts and never mutated afterwards — the
program calls no `os.Setenv`); the middleware reads `AUTH_TOKEN` from it and
compares the request's `Authorization` header: empty header → 401, mismatch →
403, match → invoke the wrapped handler. -/
def verifyToken (env : String → String) (authHeader : String) : AuthDecision :=
  let expectedToken := env "AUTH_TOKEN"
  if authHeader = "" then .reject 401 "Authorization token is required"
  else if authHeader ≠ expectedToken then .reject 403 "Invalid authorization token"
  else .invokeHandler

/-- Result of process startup: `log.Fatal` with a message (process terminates
before serving), or the server starts serving on :8080. -/
inductive StartupResult where
  | fatal (msg : String)
  | serve
deriving DecidableEq, Repr

/-- The environment validation in `main` (part_000 lines 162-176): after the
optional `.env` load, `log.Fatal` if `AUTH_TOKEN` is empty, then `log.Fatal` if
`FROM_EMAIL` or `HELO_NAME` is empty; otherwise the router is installed and the
server serves.  `PROXY_URL` is never checked in this revision. -/
def mainStartup (env : String → String) : StartupResult :=
  if env "AUTH_TOKEN" = "" then
    .fatal "AUTH_TOKEN environment variable not set"
  else if env "FROM_EMAIL" = "" ∨ env "HELO_NAME" = "" then
    .fatal "FROM_EMAIL and HELO_NAME environment variables must be set"
  else
    .serve

/-- The `GET /v1/:email/verification` handler `GetEmailVerification` (part_000
lines 48-83): reads the sender-identity configuration, answers 500 via
`http.Error` when `FROM_EMAIL` or `HELO_NAME` is empty, otherwise calls the
capability once and maps its return: transport error → `respondWithError`
(JSON body, 500); success with invalid syntax → plain `fmt.Fprint` notice,
status 200; success with valid syntax → `fmt.Fprint` of the marshalled result,
status 200.  A success carrying a nil result pointer would make the Go code
dereference nil (`ret.Syntax`) and panic; that case is `none`. -/
def GetEmailVerification (env : String → String) (verify : String → VerifyReturn)
    (email : String) : Option HttpResp :=
  let fromEmail := env "FROM_EMAIL"
  let heloName := env "HELO_NAME"
  if fromEmail = "" ∨ heloName = "" then
    some (httpError "FROM_EMAIL and HELO_NAME must be set in environment variables" 500)
  else
    match verify email with
    | .error e => some (respondWithError 500 e)
    | .ok none => none
    | .ok (some ret) =>
        if ret.syntaxCheck.valid then
          some (fprintResp (encodeVResult ret).render)
        else
          some (fprintResp "email address syntax is invalid")

/-- Trace of capability invocations made by `GetEmailVerification`: none when
the configuration check fails first, exactly one for the request's address
otherwise. -/
def GetEmailVerificationCalls (env : String → String) (email : String) : List String :=
  if env "FROM_EMAIL" = "" ∨ env "HELO_NAME" = "" then []
  else [email]

/-- A bulk outcome record with its `Result` pointer non-nil and a bulk outcome
record with its `Error` string non-empty, exactly one of the two. -/
def exactlyOnePopulated (o : BulkVerificationResult) : Prop :=
  (o.result ≠ none ∧ o.error = "") ∨ (o.result = none ∧ o.error ≠ "")

/-- Both payload fields of a bulk outcome record populated at once. -/
def bothPopulated (o : BulkVerificationResult) : Prop :=
  o.result ≠ none ∧ o.error ≠ ""

/-! ### Helper lemmas -/

/-- The goroutine body always records the input address in the `Email` field. -/
@[simp] theorem mkOutcome_email (e : String) (vr : VerifyReturn) :
    (mkOutcome e vr).email = e := by
  cases vr <;> rfl

/-- Reading every position of a list in index order reproduces the list. -/
theorem map_getD_range {α : Type} (l : List α) (d : α) :
    (List.range l.length).map (fun i => l.getD i d) = l := by
  induction l with
  | nil => rfl
  | cons a t ih =>
      have hcomp : (List.range t.length).map ((fun i => (a :: t).getD i d) ∘ Nat.succ)
          = (List.range t.length).map (fun i => t.getD i d) := by
        apply List.map_congr_left
        intro i _
        rfl
      rw [List.length_cons, List.range_succ_eq_map, List.map_cons, List.map_map,
        hcomp, ih]
      rfl

/-- Unmarshalling inverts marshalling on a single bulk outcome record. -/
theorem decodeOutcome_encodeOutcome (o : BulkVerificationResult) :
    decodeOutcome (encodeOutcome o) = some o := by
  rcases o with ⟨e, r, err⟩
  by_cases h : err = "" <;> cases r <;>
    simp [encodeOutcome, decodeOutcome, jlookup, decodeString, decodeVResult,
      encodeVResult, decodeBool, h]

/-- Unmarshalling inverts marshalling elementwise over an outcome slice. -/
theorem decodeOutcomes_map_encode (rs : List BulkVerificationResult) :
    decodeOutcomes (rs.map encodeOutcome) = some rs := by
  induction rs with
  | nil => rfl
  | cons o t ih => simp [decodeOutcomes, decodeOutcome_encodeOutcome, ih]

/-- On a structurally valid batch the bulk handler answers 200 with the
marshalled dispatch outcome. -/
theorem BulkEmailVerification_valid (verify : String → VerifyReturn)
    (emails : List String) (order : List Nat)
    (h1 : 1 ≤ emails.length) (h2 : emails.length ≤ MAX_EMAILS) :
    BulkEmailVerification verify (some ⟨emails⟩) order =
      { status := 200, contentType := "application/json",
        body := (encodeOutcomeList (bulkDispatch verify emails order)).render } := by
  have h0 : emails.length ≠ 0 := Nat.pos_iff_ne_zero.mp h1
  have hmax : ¬ emails.length > MAX_EMAILS := Nat.not_lt.mpr h2
  simp [BulkEmailVerification, h0, hmax]

/-! ### Claim theorems -/

/-- C1: for every batch, the bulk dispatch returns only after all per-address
invocations completed (the completion order covers every input index), and the
resulting outcome slice has exactly one entry per input whose `Email` fields
are, as a multiset, exactly the input addresses, regardless of completion
order; the handler's 200 body is the marshalling of exactly that slice. -/
theorem claim_C1_bulk_outcomes_complete (verify : String → VerifyReturn)
    (emails : List String) (order : List Nat)
    (hord : order.Perm (List.range emails.length))
    (h1 : 1 ≤ emails.length) (h2 : emails.length ≤ MAX_EMAILS) :
    (bulkDispatch verify emails order).length = emails.length ∧
    ((bulkDispatch verify emails order).map (fun o => o.email)).Perm emails ∧
    (BulkEmailVerification verify (some ⟨emails⟩) order).body =
      (encodeOutcomeList (bulkDispatch verify emails order)).render := by
  refine ⟨?_, ?_, ?_⟩
  · simp [bulkDispatch, hord.length_eq]
  · have hmap := hord.map (fun i => emails.getD i "")
    rw [map_getD_range] at hmap
    simpa [bulkDispatch, List.map_map, Function.comp_def] using hmap
  · have h0 : ¬ (⟨emails⟩ : BulkVerificationRequest).emails.length = 0 := by
      simpa using Nat.pos_iff_ne_zero.mp h1
    have hmax : ¬ (⟨emails⟩ : BulkVerificationRequest).emails.length > MAX_EMAILS := by
      simpa using Nat.not_lt.mpr h2
    simp [BulkEmailVerification, h0, hmax]

/-- Closed instance of C1: a two-address batch whose slow first goroutine
finishes last (completion order `[1, 0]`). -/
theorem claim_C1_witness :
    (bulkDispatch (fun _ => Except.error "x") ["a", "b"] [1, 0]).length = 2 ∧
    ((bulkDispatch (fun _ => Except.error "x") ["a", "b"] [1, 0]).map
      (fun o => o.email)).Perm ["a", "b"] ∧
    (BulkEmailVerification (fun _ => Except.error "x") (some ⟨["a", "b"]⟩) [1, 0]).body =
      (encodeOutcomeList (bulkDispatch (fun _ => Except.error "x") ["a", "b"] [1, 0])).render := by
  exact claim_C1_bulk_outcomes_complete (fun _ => Except.error "x") ["a", "b"] [1, 0]
    (by decide) (by decide) (by decide)

/-- C2 (counterexample): when the capability fails with an error whose
description is the empty string, the goroutine body stores the record
`{Email, Result = nil, Error = ""}` in which neither payload field is
populated — refuting "never neither" as stated over every possible return. -/
theorem claim_C2_counterexample :
    ¬ exactlyOnePopulated (mkOutcome "a@b.c" (Except.error "")) ∧
    (mkOutcome "a@b.c" (Except.error "")).result = none ∧
    (mkOutcome "a@b.c" (Except.error "")).error = "" := by
  refine ⟨?_, rfl, rfl⟩
  intro h
  rcases h with h | h <;> simp [mkOutcome] at h

/-- C2 (amended): every outcome record pairs the input address with at most one
populated payload field, and with exactly one whenever the capability's return
is an error with a non-empty description or a success with a non-nil result; an
error with empty description (or a success with nil result) leaves both fields
at their zero values. -/
theorem claim_C2_amended_exactly_one (e : String) (vr : VerifyReturn) :
    (mkOutcome e vr).email = e ∧
    ¬ bothPopulated (mkOutcome e vr) ∧
    (((∃ m, vr = Except.error m ∧ m ≠ "") ∨ (∃ r, vr = Except.ok (some r))) →
      exactlyOnePopulated (mkOutcome e vr)) := by
  refine ⟨mkOutcome_email e vr, ?_, ?_⟩
  · cases vr with
    | error m => rintro ⟨hr, _⟩; simp [mkOutcome] at hr
    | ok r => rintro ⟨_, herr⟩; simp [mkOutcome] at herr
  · rintro (⟨m, rfl, hm⟩ | ⟨r, rfl⟩)
    · exact Or.inr ⟨rfl, hm⟩
    · exact Or.inl ⟨by simp [mkOutcome], rfl⟩

/-- Closed instance of C2 (amended): a non-empty error description populates
exactly the `Error` field. -/
theorem claim_C2_witness :
    exactlyOnePopulated (mkOutcome "a@b.c" (Except.error "timeout")) :=
  (claim_C2_amended_exactly_one "a@b.c" (Except.error "timeout")).2.2
    (Or.inl ⟨"timeout", rfl, by decide⟩)

/-- C3: a capability failure for one address is recorded only in that address's
own outcome: against any second capability agreeing on every other address, the
two dispatches produce positionwise outcomes with the same `Email` field that
are equal whenever that field is not the failing address, and the whole-batch
response still carries status 200. -/
theorem claim_C3_fault_isolation (verify1 verify2 : String → VerifyReturn)
    (A : String) (emails : List String) (order : List Nat)
    (hagree : ∀ e, e ≠ A → verify1 e = verify2 e)
    (h1 : 1 ≤ emails.length) (h2 : emails.length ≤ MAX_EMAILS) :
    (BulkEmailVerification verify1 (some ⟨emails⟩) order).status = 200 ∧
    ∀ p ∈ (bulkDispatch verify1 emails order).zip (bulkDispatch verify2 emails order),
      p.1.email = p.2.email ∧ (p.1.email ≠ A → p.1 = p.2) := by
  constructor
  · rw [BulkEmailVerification_valid verify1 emails order h1 h2]
  · intro p hp
    rw [bulkDispatch, bulkDispatch, List.zip_map'] at hp
    rcases List.mem_map.mp hp with ⟨i, _, rfl⟩
    refine ⟨by simp, ?_⟩
    intro hne
    have hx : emails.getD i "" ≠ A := by simpa using hne
    rw [hagree _ hx]

/-- Closed instance of C3: the capability fails for "a" under the first
capability only; the batch still answers 200 and the outcome for "b" is
unchanged. -/
theorem claim_C3_witness :
    (BulkEmailVerification (fun e => if e = "a" then Except.error "boom"
        else Except.ok (some ⟨⟨true⟩⟩)) (some ⟨["a", "b"]⟩) [0, 1]).status = 200 ∧
    ∀ p ∈ (bulkDispatch (fun e => if e = "a" then Except.error "boom"
        else Except.ok (some ⟨⟨true⟩⟩)) ["a", "b"] [0, 1]).zip
          (bulkDispatch (fun _ => Except.ok (some ⟨⟨true⟩⟩)) ["a", "b"] [0, 1]),
      p.1.email = p.2.email ∧ (p.1.email ≠ "a" → p.1 = p.2) := by
  exact claim_C3_fault_isolation
    (fun e => if e = "a" then Except.error "boom" else Except.ok (some ⟨⟨true⟩⟩))
    (fun _ => Except.ok (some ⟨⟨true⟩⟩)) "a" ["a", "b"] [0, 1]
    (fun e he => by simp [he]) (by decide) (by decide)

/-- C4: the bulk endpoint answers 400 with a JSON-shaped error body exactly for
the structurally invalid requests (malformed body, empty list, more than
`MAX_EMAILS` addresses — with the oversize message mentioning the max), and for
every batch of size `1..MAX_EMAILS` it answers 200 with the marshalled array of
one outcome object per input address. -/
theorem claim_C4_bulk_validation (verify : String → VerifyReturn)
    (body : Option BulkVerificationRequest) (order : List Nat)
    (hord : ∀ req, body = some req → order.Perm (List.range req.emails.length)) :
    MAX_EMAILS = 15 ∧
    ((BulkEmailVerification verify body order).status = 400 ↔
      (body = none ∨ ∃ req, body = some req ∧
        (req.emails.length = 0 ∨ MAX_EMAILS < req.emails.length))) ∧
    ((BulkEmailVerification verify body order).status = 400 →
      ∃ m, (BulkEmailVerification verify body order).body
        = "\x7b\"error\": \"" ++ m ++ "\"\x7d\n") ∧
    (∀ req, body = some req → MAX_EMAILS < req.emails.length →
      ∃ s1 s2, (BulkEmailVerification verify body order).body
        = s1 ++ toString MAX_EMAILS ++ s2) ∧
    (∀ req, body = some req → 1 ≤ req.emails.length → req.emails.length ≤ MAX_EMAILS →
      (BulkEmailVerification verify body order).status = 200 ∧
      (BulkEmailVerification verify body order).contentType = "application/json" ∧
      ∃ rs, (BulkEmailVerification verify body order).body = (encodeOutcomeList rs).render ∧
        rs.length = req.emails.length) := by
  refine ⟨rfl, ?_⟩
  cases body with
  | none =>
      refine ⟨?_, ?_, ?_, ?_⟩
      · exact iff_of_true (by simp [BulkEmailVerification, httpError]) (Or.inl rfl)
      · intro _
        exact ⟨"Invalid request format", rfl⟩
      · intro req h
        exact Option.noConfusion h
      · intro req h
        exact Option.noConfusion h
  | some req =>
      by_cases hz : req.emails.length = 0
      · have hresp : BulkEmailVerification verify (some req) order
            = httpError "\x7b\"error\": \"No emails provided\"\x7d" 400 := by
          simp [BulkEmailVerification, hz]
        refine ⟨iff_of_true (by rw [hresp]; rfl) (Or.inr ⟨req, rfl, Or.inl hz⟩),
          fun _ => ⟨"No emails provided", by rw [hresp]; rfl⟩,
          fun req' h hov => ?_, fun req' h hpos => ?_⟩
        · injection h with h'
          subst h'
          omega
        · injection h with h'
          subst h'
          omega
      · by_cases hm : MAX_EMAILS < req.emails.length
        · have hresp : BulkEmailVerification verify (some req) order
              = httpError ("\x7b\"error\": \"Too many emails provided (max " ++
                  toString MAX_EMAILS ++ ")\"\x7d") 400 := by
            simp [BulkEmailVerification, hz, hm]
          refine ⟨iff_of_true (by rw [hresp]; rfl) (Or.inr ⟨req, rfl, Or.inr hm⟩),
            fun _ => ⟨"Too many emails provided (max " ++ toString MAX_EMAILS ++ ")",
              by rw [hresp]; decide⟩,
            fun req' h _ => ?_, fun req' h _ h2 => ?_⟩
          · injection h with h'
            subst h'
            exact ⟨"\x7b\"error\": \"Too many emails provided (max ", ")\"\x7d\n",
              by rw [hresp]; decide⟩
          · injection h with h'
            subst h'
            omega
        · have h1 : 1 ≤ req.emails.length := Nat.pos_of_ne_zero hz
          have h2 : req.emails.length ≤ MAX_EMAILS := Nat.not_lt.mp hm
          have hresp : BulkEmailVerification verify (some req) order
              = { status := 200, contentType := "application/json",
                  body := (encodeOutcomeList (bulkDispatch verify req.emails order)).render } := by
            have := BulkEmailVerification_valid verify req.emails order h1 h2
            simpa using this
          refine ⟨iff_of_false (by rw [hresp]; simp) ?_, fun h400 => ?_,
            fun req' h hov => ?_, fun req' h _ _ => ?_⟩
          · rintro (h | ⟨req', heq, hbad⟩)
            · cases h
            · injection heq with h'
              subst h'
              omega
          · rw [hresp] at h400
            simp at h400
          · injection h with h'
            subst h'
            omega
          · injection h with h'
            subst h'
            refine ⟨by rw [hresp], by rw [hresp], bulkDispatch verify req.emails order,
              by rw [hresp], ?_⟩
            have hlen := (hord req rfl).length_eq
            simp [bulkDispatch]
            simpa using hlen

/-- Closed instance of C4: a well-formed two-address batch answers 200 with a
two-outcome array; an empty batch answers 400. -/
theorem claim_C4_witness :
    (BulkEmailVerification (fun _ => Except.error "x") (some ⟨["a", "b"]⟩) [0, 1]).status = 200 ∧
    (BulkEmailVerification (fun _ => Except.error "x") (some ⟨[]⟩) []).status = 400 := by
  constructor
  · exact ((claim_C4_bulk_validation (fun _ => Except.error "x") (some ⟨["a", "b"]⟩) [0, 1]
      (by intro req h; injection h with h'; subst h'; decide)).2.2.2.2 ⟨["a", "b"]⟩ rfl
      (by decide) (by decide)).1
  · exact (claim_C4_bulk_validation (fun _ => Except.error "x") (some ⟨[]⟩) []
      (by intro req h; injection h with h'; subst h'; decide)).2.1.mpr
      (Or.inr ⟨⟨[]⟩, rfl, Or.inl rfl⟩)

/-- C5: under a non-empty server secret (which `main` guarantees for every
serving process), the middleware rejects 401 exactly when the `Authorization`
header is empty, rejects 403 exactly when it is non-empty and differs from the
secret, and invokes the wrapped handler exactly when it equals the secret. -/
theorem claim_C5_auth_decision (env : String → String) (authHeader : String)
    (hsecret : env "AUTH_TOKEN" ≠ "") :
    (verifyToken env authHeader = .reject 401 "Authorization token is required" ↔
      authHeader = "") ∧
    (verifyToken env authHeader = .reject 403 "Invalid authorization token" ↔
      (authHeader ≠ "" ∧ authHeader ≠ env "AUTH_TOKEN")) ∧
    (verifyToken env authHeader = .invokeHandler ↔ authHeader = env "AUTH_TOKEN") := by
  by_cases h1 : authHeader = ""
  · have hne : authHeader ≠ env "AUTH_TOKEN" := by
      rw [h1]
      exact fun h => hsecret h.symm
    refine ⟨iff_of_true (by simp [verifyToken, h1]) h1, ?_, ?_⟩
    · exact iff_of_false (by simp [verifyToken, h1]) (by simp [h1])
    · exact iff_of_false (by simp [verifyToken, h1]) hne
  · by_cases h2 : authHeader = env "AUTH_TOKEN"
    · refine ⟨iff_of_false (by simp [verifyToken, h1, h2, hsecret]) h1, ?_,
        iff_of_true (by simp [verifyToken, h1, h2, hsecret]) h2⟩
      exact iff_of_false (by simp [verifyToken, h1, h2, hsecret]) (by simp [h2])
    · refine ⟨iff_of_false (by simp [verifyToken, h1, h2]) h1, iff_of_true (by simp [verifyToken, h1, h2]) ⟨h1, h2⟩, iff_of_false (by simp [verifyToken, h1, h2]) h2⟩

/-- Closed instance of C5: with secret "secret", the matching header invokes the
handler, the empty header is rejected 401, a wrong header is rejected 403. -/
theorem claim_C5_witness :
    verifyToken (fun k => if k = "AUTH_TOKEN" then "secret" else "") "secret"
      = .invokeHandler ∧
    verifyToken (fun k => if k = "AUTH_TOKEN" then "secret" else "") ""
      = .reject 401 "Authorization token is required" ∧
    verifyToken (fun k => if k = "AUTH_TOKEN" then "secret" else "") "wrong"
      = .reject 403 "Invalid authorization token" := by
  refine ⟨?_, ?_, ?_⟩
  · exact (claim_C5_auth_decision (fun k => if k = "AUTH_TOKEN" then "secret" else "")
      "secret" (by decide)).2.2.mpr (by decide)
  · exact (claim_C5_auth_decision (fun k => if k = "AUTH_TOKEN" then "secret" else "")
      "" (by decide)).1.mpr rfl
  · exact (claim_C5_auth_decision (fun k => if k = "AUTH_TOKEN" then "secret" else "")
      "wrong" (by decide)).2.1.mpr (by decide)

/-- C6 (counterexample): with `AUTH_TOKEN`, `FROM_EMAIL` and `HELO_NAME` set but
`PROXY_URL` missing, `main` (part_000) starts serving anyway: the claimed check
on `PROXY_URL` does not exist in this revision. -/
theorem claim_C6_counterexample :
    mainStartup (fun k => if k = "PROXY_URL" then "" else "set") = .serve ∧
    (fun k => if k = "PROXY_URL" then "" else "set") "PROXY_URL" = "" := by
  refine ⟨?_, rfl⟩
  decide

/-- C6 (amended): startup reaches the serving state exactly when `AUTH_TOKEN`,
`FROM_EMAIL` and `HELO_NAME` are all non-empty; a missing one of these three is
fatal before serving, while `PROXY_URL` is not checked at startup. -/
theorem claim_C6_amended_startup_check (env : String → String) :
    mainStartup env = .serve ↔
      (env "AUTH_TOKEN" ≠ "" ∧ env "FROM_EMAIL" ≠ "" ∧ env "HELO_NAME" ≠ "") := by
  unfold mainStartup
  by_cases ha : env "AUTH_TOKEN" = ""
  · simp [ha]
  · by_cases hf : env "FROM_EMAIL" = ""
    · simp [ha, hf]
    · by_cases hh : env "HELO_NAME" = ""
      · simp [ha, hf, hh]
      · simp [ha, hf, hh]

/-- C7: the middleware's decision depends only on the `AUTH_TOKEN` entry of the
process environment (fixed for the process lifetime — the program never mutates
its environment after startup) and the request header: two environments with
the same `AUTH_TOKEN` yield the same decision on the same request, whatever
their other entries. -/
theorem claim_C7_token_noninterference (env1 env2 : String → String)
    (authHeader : String) (h : env1 "AUTH_TOKEN" = env2 "AUTH_TOKEN") :
    verifyToken env1 authHeader = verifyToken env2 authHeader := by
  simp only [verifyToken, h]

/-- Closed instance of C7: two environments sharing `AUTH_TOKEN` but differing
on `PROXY_URL` produce the same decision. -/
theorem claim_C7_witness :
    verifyToken (fun k => if k = "AUTH_TOKEN" then "s" else "p1") "s"
      = verifyToken (fun k => if k = "AUTH_TOKEN" then "s" else "p2") "s" ∧
    (fun k => if k = "AUTH_TOKEN" then "s" else "p1") "PROXY_URL"
      ≠ (fun k => if k = "AUTH_TOKEN" then "s" else "p2") "PROXY_URL" := by
  refine ⟨?_, by decide⟩
  exact claim_C7_token_noninterference (fun k => if k = "AUTH_TOKEN" then "s" else "p1")
    (fun k => if k = "AUTH_TOKEN" then "s" else "p2") "s" rfl

/-- C8 (counterexample): on a transport failure the single-address handler in
part_000 answers through `respondWithError`, i.e. a JSON `{"error": ...}` body
with `Content-Type: application/json` — not the plain-text error body the claim
states. -/
theorem claim_C8_counterexample :
    GetEmailVerification (fun _ => "x") (fun _ => Except.error "boom") "a@b.c"
      = some (respondWithError 500 "boom") ∧
    (respondWithError 500 "boom").contentType = "application/json" ∧
    respondWithError 500 "boom" ≠ httpError "boom" 500 := by
  refine ⟨rfl, rfl, ?_⟩
  intro h
  have := congrArg HttpResp.contentType h
  simp [respondWithError, httpError] at this

/-- C8 (amended): the single-address handler first validates the sender-identity
configuration (answering 500 and never invoking the capability when it is
missing); otherwise it invokes the capability exactly once and maps its return:
transport failure → JSON error body via `respondWithError` with status 500,
success with invalid syntax → plain-text notice "email address syntax is
invalid" with status 200, success otherwise → the marshalled result with
status 200. -/
theorem claim_C8_amended_single_handler (env : String → String)
    (verify : String → VerifyReturn) (email : String) :
    ((env "FROM_EMAIL" = "" ∨ env "HELO_NAME" = "") →
      GetEmailVerification env verify email
        = some (httpError "FROM_EMAIL and HELO_NAME must be set in environment variables" 500) ∧
      GetEmailVerificationCalls env email = []) ∧
    (env "FROM_EMAIL" ≠ "" → env "HELO_NAME" ≠ "" →
      GetEmailVerificationCalls env email = [email] ∧
      (∀ e, verify email = Except.error e →
        GetEmailVerification env verify email = some (respondWithError 500 e)) ∧
      (∀ ret, verify email = Except.ok (some ret) →
        GetEmailVerification env verify email
          = some (if ret.syntaxCheck.valid then fprintResp (encodeVResult ret).render
              else fprintResp "email address syntax is invalid"))) := by
  constructor
  · intro hmiss
    exact ⟨by simp [GetEmailVerification, hmiss], by simp [GetEmailVerificationCalls, hmiss]⟩
  · intro hf hh
    refine ⟨by simp [GetEmailVerificationCalls, hf, hh], ?_, ?_⟩
    · intro e he
      simp [GetEmailVerification, hf, hh, he]
    · intro ret hret
      by_cases hv : ret.syntaxCheck.valid <;> simp [GetEmailVerification, hf, hh, hret, hv]

/-- Closed instance of C8 (amended): with the configuration present, a transport
failure maps to the JSON 500 error and the capability is invoked exactly once. -/
theorem claim_C8_witness :
    GetEmailVerification (fun _ => "x") (fun _ => Except.error "boom") "e@x.y"
      = some (respondWithError 500 "boom") ∧
    GetEmailVerificationCalls (fun _ => "x") "e@x.y" = ["e@x.y"] := by
  have h := (claim_C8_amended_single_handler (fun _ => "x")
    (fun _ => Except.error "boom") "e@x.y").2 (by decide) (by decide)
  exact ⟨h.2.1 "boom" rfl, h.1⟩

/-- C9: marshalling an outcome slice to its JSON value and unmarshalling it back
is the identity on every `{email, result|error}` record. -/
theorem claim_C9_roundtrip (rs : List BulkVerificationResult) :
    decodeOutcomeList (encodeOutcomeList rs) = some rs := by
  simpa [encodeOutcomeList, decodeOutcomeList] using decodeOutcomes_map_encode rs

/-- C10: an outcome built from a failure with empty error description equals,
as a record, an outcome built from a success with nil result pointer — two
distinct capability returns — and both marshal (with the `omitempty` tags) to
the object holding only the `email` field, so the success/failure distinction
is lost at the serialized interface. -/
theorem claim_C10_omitempty_collapse :
    mkOutcome "a@b.c" (Except.error "") = mkOutcome "a@b.c" (Except.ok none) ∧
    (Except.error "" : VerifyReturn) ≠ Except.ok none ∧
    (encodeOutcome (mkOutcome "a@b.c" (Except.error ""))).render
      = "\x7b\"email\":\"a@b.c\"\x7d" ∧
    (encodeOutcome (mkOutcome "a@b.c" (Except.error ""))).render
      = (encodeOutcome (mkOutcome "a@b.c" (Except.ok none))).render := by
  refine ⟨rfl, by simp, ?_, rfl⟩
  rfl
